import Mathlib

/-!
Verification of the multi-device contiguous virtual-memory allocator sample
(`0_Simple/vectorAddMMAP/vectorAddMMAP.cpp`) against its natural-language
specification.

The device/runtime layer is modelled, as the specification itself suggests,
as a pure function over an immutable device capability table: devices are
the ordinals `0, ..., numDevices - 1` (CUDA driver-API `CUdevice` values),
with a peer-accessibility relation, a per-device virtual-address-management
capability flag, and a per-device allocation granularity.
-/

/-- Immutable capability table over the enumerated devices `0..numDevices-1`:
`canAccessPeer a b` models `cuDeviceCanAccessPeer(&capable, a, b)`,
`vamSupported d` models `cuDeviceGetAttribute(&v,
CU_DEVICE_ATTRIBUTE_VIRTUAL_ADDRESS_MANAGEMENT_SUPPORTED, d)`, and
`granularity d` models the allocation granularity query for device `d`. -/
structure DeviceTable where
  numDevices : Nat
  canAccessPeer : Nat → Nat → Bool
  vamSupported : Nat → Bool
  granularity : Nat → Nat

/-- One iteration of the device-enumeration loop of `getBackingDevices`
(vectorAddMMAP.cpp lines 71-98), with its three `continue` branches in source
order: skip the mapping device itself, skip a non-peer-capable device, skip
when the virtual-address-management attribute query yields 0.  NOTE: the
source queries the attribute for `cuDevice` (the mapping device), not for
`dev` (lines 90-92); this embedding preserves that. -/
def backingStep (td : DeviceTable) (cuDevice : Nat)
    (backingDevices : List Nat) (dev : Nat) : List Nat :=
  if dev == cuDevice then
    backingDevices
  else if !(td.canAccessPeer cuDevice dev) then
    backingDevices
  else if !(td.vamSupported cuDevice) then
    backingDevices
  else
    backingDevices ++ [dev]

/-- `getBackingDevices(cuDevice)` (vectorAddMMAP.cpp lines 63-100): start from
the singleton `[cuDevice]` (the `push_back` on line 70) and run the
enumeration loop over devices `0..numDevices-1`. -/
def getBackingDevices (td : DeviceTable) (cuDevice : Nat) : List Nat :=
  (List.range td.numDevices).foldl (backingStep td cuDevice) [cuDevice]

/-- The filtering predicate the loop of `getBackingDevices` effectively
applies to a candidate device (including the source's bug: the
virtual-address-management attribute is that of the mapping device). -/
def backingPred (td : DeviceTable) (cuDevice dev : Nat) : Bool :=
  dev != cuDevice && td.canAccessPeer cuDevice dev && td.vamSupported cuDevice

theorem backingStep_eq (td : DeviceTable) (c : Nat) (acc : List Nat) (x : Nat) :
    backingStep td c acc x = if backingPred td c x then acc ++ [x] else acc := by
  unfold backingStep backingPred
  cases hx : x == c with
  | true =>
    have hxc : x = c := eq_of_beq hx
    simp [hx, hxc]
  | false =>
    cases hp : td.canAccessPeer c x with
    | true =>
      cases hv : td.vamSupported c with
      | true => simp [hx, hp, hv, bne]
      | false => simp [hx, hp, hv, bne]
    | false => simp [hx, hp, bne]

theorem backingFold_eq (td : DeviceTable) (c : Nat) (l acc : List Nat) :
    l.foldl (backingStep td c) acc = acc ++ l.filter (backingPred td c) := by
  induction l generalizing acc with
  | nil => simp
  | cons x xs ih =>
    rw [List.foldl_cons, List.filter_cons, backingStep_eq]
    cases hx : backingPred td c x with
    | true => simp [hx, ih, List.append_assoc]
    | false => simp [hx, ih]

/-- Characterization of `getBackingDevices`: the mapping device followed by
the devices, in enumeration order, that pass the loop's three checks. -/
theorem getBackingDevices_eq (td : DeviceTable) (d : Nat) :
    getBackingDevices td d
      = d :: (List.range td.numDevices).filter (backingPred td d) := by
  unfold getBackingDevices
  rw [backingFold_eq]
  rfl

/-- What §4.1 of the specification asks of the topology prober: include a
candidate device iff the mapping device can access it as a peer AND the
candidate device itself supports virtual-address management. -/
def backingDevicesForSpec (td : DeviceTable) (d : Nat) : List Nat :=
  d :: (List.range td.numDevices).filter
    (fun dev => dev != d && td.canAccessPeer d dev && td.vamSupported dev)

/-- A two-device topology exhibiting the attribute-query bug: device 0 (the
mapping device) supports virtual-address management, device 1 is
peer-accessible from device 0 but does NOT support virtual-address
management. -/
def tdBug : DeviceTable where
  numDevices := 2
  canAccessPeer := fun a b => a == 0 && b == 1
  vamSupported := fun d => d == 0
  granularity := fun _ => 1

/-- A well-behaved two-device topology: full peer access, both devices
support virtual-address management. -/
def tdOk : DeviceTable where
  numDevices := 2
  canAccessPeer := fun _ _ => true
  vamSupported := fun _ => true
  granularity := fun _ => 1

/-- Abstract CUDA driver-API failure codes, for the `checkCudaErrors`
discipline of the sample: every driver call either succeeds or aborts the
computation with an error. -/
inductive CUerror
  | invalidDevice
  | invalidValue
deriving DecidableEq

/-- `cuDeviceGetCount` over the capability-table model: a read-only query
that always succeeds. -/
def cuDeviceGetCount (td : DeviceTable) : Except CUerror Nat :=
  .ok td.numDevices

/-- `cuDeviceCanAccessPeer` over the capability-table model: a read-only
query that always succeeds. -/
def cuDeviceCanAccessPeer (td : DeviceTable) (a b : Nat) : Except CUerror Bool :=
  .ok (td.canAccessPeer a b)

/-- The `cuDeviceGetAttribute` query for
`CU_DEVICE_ATTRIBUTE_VIRTUAL_ADDRESS_MANAGEMENT_SUPPORTED` over the
capability-table model: a read-only query that always succeeds. -/
def cuDeviceGetAttributeVAM (td : DeviceTable) (d : Nat) : Except CUerror Bool :=
  .ok (td.vamSupported d)

/-- The enumeration loop of `getBackingDevices` with the error plumbing of
`checkCudaErrors` made explicit: a failing driver query would abort the
whole call, while a device failing a predicate merely hits a `continue`. -/
def backingLoopE (td : DeviceTable) (cuDevice : Nat) :
    List Nat → List Nat → Except CUerror (List Nat)
  | backingDevices, [] => .ok backingDevices
  | backingDevices, dev :: rest =>
    if dev == cuDevice then
      backingLoopE td cuDevice backingDevices rest
    else
      match cuDeviceCanAccessPeer td cuDevice dev with
      | .error e => .error e
      | .ok capable =>
        if !capable then
          backingLoopE td cuDevice backingDevices rest
        else
          match cuDeviceGetAttributeVAM td cuDevice with
          | .error e => .error e
          | .ok attributeVal =>
            if !attributeVal then
              backingLoopE td cuDevice backingDevices rest
            else
              backingLoopE td cuDevice (backingDevices ++ [dev]) rest

/-- `getBackingDevices` in the explicit-error presentation: get the device
count, then run the filtering loop starting from `[cuDevice]`. -/
def getBackingDevicesE (td : DeviceTable) (cuDevice : Nat) :
    Except CUerror (List Nat) :=
  match cuDeviceGetCount td with
  | .error e => .error e
  | .ok num_devices => backingLoopE td cuDevice [cuDevice] (List.range num_devices)

theorem backingLoopE_eq (td : DeviceTable) (c : Nat) (l acc : List Nat) :
    backingLoopE td c acc l = .ok (l.foldl (backingStep td c) acc) := by
  induction l generalizing acc with
  | nil => rfl
  | cons x xs ih =>
    rw [List.foldl_cons]
    cases hx : x == c with
    | true =>
      have hs : backingStep td c acc x = acc := by simp [backingStep, hx]
      rw [hs]
      simp only [backingLoopE, hx, if_true]
      exact ih acc
    | false =>
      cases hp : td.canAccessPeer c x with
      | false =>
        have hs : backingStep td c acc x = acc := by simp [backingStep, hx, hp]
        rw [hs]
        simp only [backingLoopE, cuDeviceCanAccessPeer, hx, hp]
        simpa using ih acc
      | true =>
        cases hv : td.vamSupported c with
        | false =>
          have hs : backingStep td c acc x = acc := by
            simp [backingStep, hx, hp, hv]
          rw [hs]
          simp only [backingLoopE, cuDeviceCanAccessPeer,
            cuDeviceGetAttributeVAM, hx, hp, hv]
          simpa using ih acc
        | true =>
          have hs : backingStep td c acc x = acc ++ [x] := by
            simp [backingStep, hx, hp, hv]
          rw [hs]
          simp only [backingLoopE, cuDeviceCanAccessPeer,
            cuDeviceGetAttributeVAM, hx, hp, hv]
          simpa using ih (acc ++ [x])

/-- C1 (code bug witness): on the topology `tdBug` — mapping device 0
supports virtual-address management, device 1 is peer-accessible from 0 but
does NOT — `getBackingDevices` nevertheless returns device 1, because the
source queries the attribute of the mapping device (vectorAddMMAP.cpp lines
90-92) instead of the candidate device, contradicting its own comment on
line 89.  So the returned sequence CAN contain a device lacking
virtual-address-management support. -/
theorem getBackingDevices_includes_vam_unsupported :
    getBackingDevices tdBug 0 = [0, 1] ∧ tdBug.vamSupported 1 = false := by
  constructor
  · decide
  · decide

/-- C2 (code bug witness): on the topology `tdBug`, the sequence computed by
the code differs from the sequence the specification's filter describes: the
code returns `[0, 1]` (it admits device 1 because the attribute query is
made on the mapping device), while filtering on
`d.canAccessPeer(device) && device.supportsVirtualAddressManagement` as the
specification states yields `[0]`. -/
theorem getBackingDevices_ne_spec :
    getBackingDevices tdBug 0 = [0, 1] ∧ backingDevicesForSpec tdBug 0 = [0] := by
  constructor
  · decide
  · decide

/-- C5: for every device table and mapping device `d`, the sequence returned
by `getBackingDevices` is non-empty and its first element is `d` itself. -/
theorem getBackingDevices_head (td : DeviceTable) (d : Nat) :
    getBackingDevices td d ≠ [] ∧ (getBackingDevices td d).head? = some d := by
  rw [getBackingDevices_eq]
  exact ⟨by simp, rfl⟩

/-- C6: the sequence returned by `getBackingDevices` never contains a device
other than the mapping device `d` for which `d.canAccessPeer(device)` is
false: the peer-access `continue` (vectorAddMMAP.cpp lines 82-87) filters
every such device out. -/
theorem getBackingDevices_peer (td : DeviceTable) (d x : Nat)
    (hmem : x ∈ getBackingDevices td d) (hne : x ≠ d) :
    td.canAccessPeer d x = true := by
  rw [getBackingDevices_eq] at hmem
  rcases List.mem_cons.mp hmem with h | h
  · exact absurd h hne
  · have hp := List.of_mem_filter h
    unfold backingPred at hp
    simp only [Bool.and_eq_true] at hp
    exact hp.1.2

/-- Witness for C6 at a concrete topology: device 1 is in the backing set of
device 0 on `tdOk`, and the theorem yields the peer-access fact there. -/
theorem getBackingDevices_peer_witness :
    (1 ∈ getBackingDevices tdOk 0 ∧ (1 : Nat) ≠ 0) ∧
      tdOk.canAccessPeer 0 1 = true :=
  ⟨⟨by decide, by decide⟩,
    getBackingDevices_peer tdOk 0 1 (by decide) (by decide)⟩

/-- C7: with the `checkCudaErrors` error plumbing made explicit,
`getBackingDevices` always completes with a result and never turns a device
failing the peer-access or virtual-address-management predicate into a
failure of the call: the explicit-error loop returns `.ok` of exactly the
sequence the pure function computes, for every device table. -/
theorem getBackingDevicesE_ok (td : DeviceTable) (d : Nat) :
    getBackingDevicesE td d = .ok (getBackingDevices td d) := by
  unfold getBackingDevicesE cuDeviceGetCount getBackingDevices
  exact backingLoopE_eq td d (List.range td.numDevices) [d]

/-- C10: no device appears more than once in the sequence returned by
`getBackingDevices` (the enumerated devices `0..numDevices-1` are pairwise
distinct ordinals); in particular the mapping device, pushed first and then
skipped by the `dev == cuDevice` check during enumeration, appears exactly
once. -/
theorem getBackingDevices_nodup (td : DeviceTable) (d : Nat) :
    (getBackingDevices td d).Nodup ∧ (getBackingDevices td d).count d = 1 := by
  rw [getBackingDevices_eq]
  have hd : d ∉ (List.range td.numDevices).filter (backingPred td d) := by
    intro h
    have hp := List.of_mem_filter h
    simp [backingPred] at hp
  have hnd : ((List.range td.numDevices).filter (backingPred td d)).Nodup :=
    (List.nodup_range _).filter _
  refine ⟨List.nodup_cons.mpr ⟨hd, hnd⟩, ?_⟩
  rw [List.count_cons_self, List.count_eq_zero.mpr hd]

/-- Round `n` up to the nearest multiple of the granularity `g`. -/
def roundUp (n g : Nat) : Nat := ((n + g - 1) / g) * g

/-- Modelled from the spec: the per-allocation metadata of §3 — the ordered
physical chunks (as handle ids plus their rounded sizes), the total size of
the virtual range, and the mapping set granted access.  (The implementation
lives in `multidevicealloc_memmap.hpp`, which is not among the sources;
only its declarations and callers appear in `vectorAddMMAP.cpp`.) -/
structure Allocation where
  chunkIds : List Nat
  chunkSizes : List Nat
  totalSize : Nat
  mappingSet : List Nat
deriving DecidableEq, Repr

/-- Modelled from the spec: the process-wide allocator state of §3/§9 — the
AllocationRegistry (base pointer to metadata), plus the resident physical
chunk handles and reserved virtual ranges, so that leak freedom is
expressible; fresh bases and chunk ids come from counters. -/
structure AllocState where
  registry : List (Nat × Allocation)
  liveChunks : List Nat
  reservedRanges : List Nat
  nextBase : Nat
  nextChunkId : Nat
deriving DecidableEq, Repr

/-- The allocator state at process start: empty registry, no resident
chunks, no reserved ranges (§9: empty at startup). -/
def initState : AllocState :=
  { registry := []
    liveChunks := []
    reservedRanges := []
    nextBase := 0
    nextChunkId := 0 }

/-- Modelled from the spec: the error taxonomy of §7. -/
inductive AllocError
  | capabilityUnsupported
  | physicalAllocationFailed
  | addressReservationFailed
  | mappingFailed
  | unknownAllocation
  | invalidValue
deriving DecidableEq, Repr

/-- Modelled from the spec: `allocate(size, backingSet, mappingSet)` of
§4.6, orchestrating §4.2-§4.5 (the implementation in
`multidevicealloc_memmap.hpp` is not among the sources).  The requested
size is split evenly across the backing set, each share rounded up to its
device's granularity (§4.3 reference policy); the virtual range's total
size is the chunk total rounded to the maximum granularity (§4.4); on full
success the registry gains the new entry and the base pointer and actual
size are returned (§4.6). -/
def simpleMallocMultiDeviceMmap (td : DeviceTable) (size : Nat)
    (backingSet mappingSet : List Nat) (s : AllocState) :
    Except AllocError ((Nat × Nat) × AllocState) :=
  if size = 0 ∨ backingSet = [] then .error .invalidValue
  else
    let n := backingSet.length
    let share := (size + n - 1) / n
    let chunkSizes := backingSet.map (fun d => roundUp share (td.granularity d))
    let align := (backingSet.map td.granularity).foldl max 1
    let totalSize := roundUp chunkSizes.sum align
    let ids := (List.range n).map (fun i => s.nextChunkId + i)
    let base := s.nextBase
    .ok ((base, totalSize),
      { registry := (base, ⟨ids, chunkSizes, totalSize, mappingSet⟩) :: s.registry
        liveChunks := s.liveChunks ++ ids
        reservedRanges := s.reservedRanges ++ [base]
        nextBase := s.nextBase + totalSize
        nextChunkId := s.nextChunkId + n })

/-- Modelled from the spec: `free(pointer, size)` of §4.6 (the
implementation in `multidevicealloc_memmap.hpp` is not among the sources).
The pointer is looked up in the registry; if absent the call fails with
`unknownAllocation` and mutates nothing.  On a hit, the chunks of the
allocation are unmapped and released, the virtual range reservation is
freed, and the registry entry is removed; the `size` argument is accepted
for symmetry but the recorded metadata is authoritative. -/
def simpleFreeMultiDeviceMmap (dptr size : Nat) (s : AllocState) :
    Except AllocError Unit × AllocState :=
  match s.registry.lookup dptr with
  | none => (.error .unknownAllocation, s)
  | some alloc =>
    (.ok (),
      { registry := s.registry.filter (fun e => e.1 != dptr)
        liveChunks := s.liveChunks.filter (fun c => !(alloc.chunkIds.contains c))
        reservedRanges := s.reservedRanges.filter (fun b => b != dptr)
        nextBase := s.nextBase
        nextChunkId := s.nextChunkId })

theorem filter_not_contains_self (l : List Nat) :
    l.filter (fun c => !(l.contains c)) = [] := by
  rw [List.filter_eq_nil_iff]
  intro a ha
  simp [ha]

/-- C3: starting from the pristine allocator state, a successful `allocate`
immediately followed by `free` on the returned `(pointer, actualSize)` pair
leaves the allocation registry empty, with every physical chunk of that
call released and its virtual-address reservation freed — no leaked
resources. -/
theorem alloc_free_no_leak (td : DeviceTable) (size : Nat)
    (backingSet mappingSet : List Nat)
    (hsz : size ≠ 0) (hb : backingSet ≠ []) :
    ∃ p actualSize s1,
      simpleMallocMultiDeviceMmap td size backingSet mappingSet initState
        = .ok ((p, actualSize), s1) ∧
      (simpleFreeMultiDeviceMmap p actualSize s1).1 = .ok () ∧
      (simpleFreeMultiDeviceMmap p actualSize s1).2.registry = [] ∧
      (simpleFreeMultiDeviceMmap p actualSize s1).2.liveChunks = [] ∧
      (simpleFreeMultiDeviceMmap p actualSize s1).2.reservedRanges = [] := by
  have hguard : ¬(size = 0 ∨ backingSet = []) := by
    rintro (h | h)
    · exact hsz h
    · exact hb h
  unfold simpleMallocMultiDeviceMmap
  rw [if_neg hguard]
  refine ⟨_, _, _, rfl, ?_, ?_, ?_, ?_⟩ <;>
    simp [simpleFreeMultiDeviceMmap, initState, List.lookup,
      filter_not_contains_self]

/-- Witness for C3 at concrete inputs: 100 bytes on the two-device
topology `tdOk`, backed and mapped by device 0. -/
theorem alloc_free_no_leak_witness :
    ∃ p actualSize s1,
      simpleMallocMultiDeviceMmap tdOk 100 [0] [0] initState
        = .ok ((p, actualSize), s1) ∧
      (simpleFreeMultiDeviceMmap p actualSize s1).1 = .ok () ∧
      (simpleFreeMultiDeviceMmap p actualSize s1).2.registry = [] ∧
      (simpleFreeMultiDeviceMmap p actualSize s1).2.liveChunks = [] ∧
      (simpleFreeMultiDeviceMmap p actualSize s1).2.reservedRanges = [] :=
  alloc_free_no_leak tdOk 100 [0] [0] (by decide) (by decide)

/-- C4: `free` on a pointer not present in the allocation registry — one
never returned by `allocate`, or one whose entry was already removed by a
previous `free` (a double free) — fails with the `unknownAllocation` error
and performs no mutation: the returned state is exactly the input state. -/
theorem free_unknown_no_mutation (dptr size : Nat) (s : AllocState)
    (h : s.registry.lookup dptr = none) :
    simpleFreeMultiDeviceMmap dptr size s
      = (.error .unknownAllocation, s) := by
  unfold simpleFreeMultiDeviceMmap
  rw [h]

/-- Witness for C4 at a concrete input: freeing pointer 5 in the pristine
state (a pointer never returned by `allocate`) fails with
`unknownAllocation` and leaves the state untouched. -/
theorem free_unknown_no_mutation_witness :
    simpleFreeMultiDeviceMmap 5 7 initState
      = (.error .unknownAllocation, initState) :=
  free_unknown_no_mutation 5 7 initState rfl

/-- The tolerance of the result check (vectorAddMMAP.cpp line 211): the
literal `1e-7f`, as an exact rational.  Host element values are modelled as
rationals. -/
def vecAddTol : ℚ := 1 / 10 ^ 7

/-- The problem size of `main` (vectorAddMMAP.cpp line 106): `N = 50000`. -/
def vectorAddN : Nat := 50000

/-- The verification loop of `main` (vectorAddMMAP.cpp lines 204-215): scan
`i = 0, 1, ...` and `break` at the first index whose result differs from
`h_A[i] + h_B[i]` by more than the tolerance; the value of `i` on exit is
that first failing index, or `N` when no index fails. -/
def verifyExitIndex (hA hB hC : Nat → ℚ) (N : Nat) : Nat :=
  match (List.range N).find?
      (fun i => decide (|hC i - (hA i + hB i)| > vecAddTol)) with
  | some i => i
  | none => N

/-- The verdict printed by `main` (vectorAddMMAP.cpp line 218): PASS exactly
when the verification loop ran to completion, i.e. `i == N`. -/
def vectorAddPass (hA hB hC : Nat → ℚ) : Bool :=
  verifyExitIndex hA hB hC vectorAddN == vectorAddN

/-- C9: with `N = 50000`, the program reports PASS iff every index
`i < N` satisfies `|h_C[i] - (h_A[i] + h_B[i])| <= 1e-7`: the break-on-first
-failure loop accepts exactly when all `N` elements are within the absolute
tolerance of the elementwise sum. -/
theorem vectorAddPass_iff (hA hB hC : Nat → ℚ) :
    vectorAddPass hA hB hC = true ↔
      ∀ i < vectorAddN, |hC i - (hA i + hB i)| ≤ vecAddTol := by
  unfold vectorAddPass verifyExitIndex
  cases hfind : (List.range vectorAddN).find?
      (fun i => decide (|hC i - (hA i + hB i)| > vecAddTol)) with
  | none =>
    simp only [beq_self_eq_true, true_iff]
    intro i hi
    have hno := List.find?_eq_none.mp hfind i (List.mem_range.mpr hi)
    have hnot : ¬(|hC i - (hA i + hB i)| > vecAddTol) := by simpa using hno
    exact not_lt.mp hnot
  | some i =>
    have hmem := List.mem_of_find?_eq_some hfind
    have hi : i < vectorAddN := List.mem_range.mp hmem
    have hp := List.find?_some hfind
    have hgt : |hC i - (hA i + hB i)| > vecAddTol := of_decide_eq_true hp
    have hne : (i == vectorAddN) = false := by
      simp [Nat.ne_of_lt hi]
    rw [hne]
    constructor
    · intro h
      exact absurd h (by simp)
    · intro hall
      exact absurd (hall i hi) (not_le.mpr hgt)

/-- Outcome of the phase of `main` that runs up to and including the three
allocator calls: waived before any allocation (virtual-address management
missing on the chosen device), or allocated with the three device pointers
and the recorded allocation size, or aborted by an allocator error. -/
inductive MainOutcome
  | waived
  | allocated (dA dB dC : Nat) (allocationSize : Nat)
  | allocFailed (e : AllocError)
deriving DecidableEq, Repr

/-- The start of `main` (vectorAddMMAP.cpp lines 103-180), up to the three
allocator calls: `N = 50000`, `size = N * sizeof(float)`; the chosen
device's virtual-address-management attribute is checked (lines 115-123)
and on failure the program exits with `EXIT_WAIVED` before anything touches
the allocator; otherwise the mapping set `[cuDevice]` and the backing set
are built and `simpleMallocMultiDeviceMmap` runs for `d_A`, `d_B`, `d_C`
(lines 178-180), threading the allocator state. -/
def mainUpToAlloc (td : DeviceTable) (cuDevice : Nat) :
    MainOutcome × AllocState :=
  let N := 50000
  let size := N * 4
  if td.vamSupported cuDevice = false then
    (.waived, initState)
  else
    let mappingDevices := [cuDevice]
    let backingDevices := getBackingDevices td cuDevice
    match simpleMallocMultiDeviceMmap td size backingDevices mappingDevices
        initState with
    | .error e => (.allocFailed e, initState)
    | .ok ((dA, allocationSize), s1) =>
      match simpleMallocMultiDeviceMmap td size backingDevices mappingDevices
          s1 with
      | .error e => (.allocFailed e, s1)
      | .ok ((dB, _), s2) =>
        match simpleMallocMultiDeviceMmap td size backingDevices
            mappingDevices s2 with
        | .error e => (.allocFailed e, s2)
        | .ok ((dC, _), s3) => (.allocated dA dB dC allocationSize, s3)

/-- C8: if the chosen mapping device does not support virtual-address
management, `main` abandons the allocation path before any allocate call is
attempted: the outcome is the terminal waiver and the allocator state is
still the pristine one — no allocator resources were created and no
fallback was taken. -/
theorem main_waived_before_alloc (td : DeviceTable) (d : Nat)
    (h : td.vamSupported d = false) :
    mainUpToAlloc td d = (.waived, initState) := by
  unfold mainUpToAlloc
  rw [if_pos h]

/-- A single-device topology whose device lacks virtual-address-management
support. -/
def tdNoVam : DeviceTable where
  numDevices := 1
  canAccessPeer := fun _ _ => false
  vamSupported := fun _ => false
  granularity := fun _ => 65536

/-- Witness for C8 at a concrete topology: on `tdNoVam`, device 0 lacks
virtual-address management and `main` waives before allocating. -/
theorem main_waived_before_alloc_witness :
    tdNoVam.vamSupported 0 = false ∧
      mainUpToAlloc tdNoVam 0 = (.waived, initState) :=
  ⟨by decide, main_waived_before_alloc tdNoVam 0 (by decide)⟩
